import Mathlib

/-!
Verification of `pkg/controller/podautoscaler/predictive_utils.go`:
a shallow embedding of the predictive-autoscaling helpers
(observation-window maintenance, boot-latency estimation, linear trend
fitting and prediction), with theorems checking the documented behaviour.

Modelling conventions:

* Go `float64` values are modelled as exact rationals (`ℚ`).
* A window observation `map[string]int` always holds exactly one entry
  (the code only ever builds singleton maps keyed by a serialized
  timestamp), so it is modelled as a `String × Int` pair.
* `time.Time.UnmarshalJSON` (Go 1.4/1.5, as vendored by 2015 Kubernetes)
  executes `*t, err = Parse(...)`; on a malformed input the receiver is
  assigned the zero `Time` and `removeOldUtils` ignores the returned
  error.  Parsing is modelled by a caller-supplied
  `parse : String → Option ℚ` (seconds since the Unix epoch); the zero
  `Time` corresponds to `-62135596800` seconds (January 1, year 1 UTC),
  so `time.Since` on it is astronomically large.
* `time.Now()` inside `updateUtilizationObservations` is modelled by the
  pair `(nowKey, now)`: the serialized form that becomes the stored map
  key, and its value in seconds.  `time.Time.MarshalJSON` cannot fail on
  a representable wall-clock time, so the early-error branch of
  `updateUtilizationObservations` is unreachable; the `Except` result
  type mirrors the Go `(value, error)` signature.
* `time.Duration` values are integer nanoseconds; `Duration.String` and
  `time.ParseDuration` are modelled by caller-supplied
  `fmtDur : Int → String` and `parseDur : String → Option Int`
  (the Go standard library guarantees `ParseDuration (d.String()) = d`,
  taken as a hypothesis where a theorem needs it).
* Go passes `api.Pod` to `initTimeForPod` by value: the struct is
  copied, but the `Annotations` map header still aliases the caller's
  backing store when it is non-nil.  `initTimeForPod` returns the final
  state of the local copy; `initTimeForPodCaller` derives what the
  caller observes afterwards (map writes are shared exactly when the
  caller's map was allocated).
-/

namespace PredictiveUtils

/-- One stored observation: the serialized-timestamp key of the singleton
`map[string]int` together with its CPU-utilization value. -/
abbrev Observation := String × Int

/-- Unix seconds of Go's zero `time.Time` (January 1, year 1 UTC), the value
a `time.Time` holds after a failed `UnmarshalJSON`. -/
def goZeroTimeSeconds : ℚ := -62135596800

/-- The `maxDistance` computed at the top of `removeOldUtils`:
`math.Min(podInitTime*k, 60.0*10.0)` with `k = 20.0`. -/
def retentionMaxDistance (podInitTime : ℚ) : ℚ :=
  min (podInitTime * 20) (60 * 10)

/-- The scan loop of `removeOldUtils`: find the first observation whose age
`time.Since(t).Seconds()` is below `maxDistance` and keep everything from it
on (`previousObservations[firstToKeep:]`); if none qualifies, return the
empty slice.  A key that fails to parse leaves `t` at the zero time. -/
def removeOldLoop (parse : String → Option ℚ) (now maxDistance : ℚ) :
    List Observation → List Observation
  | [] => []
  | ob :: rest =>
    let t := (parse ob.1).getD goZeroTimeSeconds
    if now - t < maxDistance then ob :: rest
    else removeOldLoop parse now maxDistance rest

/-- `removeOldUtils`: drop previous CPU observations that are too old to
keep predicting on. -/
def removeOldUtils (parse : String → Option ℚ) (now : ℚ)
    (previousObservations : List Observation) (podInitTime : ℚ) :
    List Observation :=
  removeOldLoop parse now (retentionMaxDistance podInitTime)
    previousObservations

/-- `updateUtilizationObservations`: marshal the current time, evict stale
observations, and append the new `{now: currentUtilization}` record.  The
only Go error exit is `time.Now().MarshalJSON()`, which cannot fail for a
representable time and is modelled by the caller-supplied `(nowKey, now)`. -/
def updateUtilizationObservations (parse : String → Option ℚ)
    (nowKey : String) (now : ℚ) (cpuCurrentUtilization : Int)
    (previousObservations : List Observation) (podInitTime : ℚ) :
    Except String (List Observation) :=
  let observation : Observation := (nowKey, cpuCurrentUtilization)
  let pruned := removeOldUtils parse now previousObservations podInitTime
  .ok (pruned ++ [observation])

/-- Errors of the vendored `github.com/montanaflynn/stats` functions plus
the explicit zero-variance rejection in `lineOfBestFit`. -/
inductive FitError
  | emptyInput
  | sizeMismatch
  | degenerateInput
deriving DecidableEq

/-- Arithmetic mean, `stats.Mean` without its emptiness guard. -/
def statsMean (xs : List ℚ) : ℚ := xs.sum / xs.length

/-- Population variance of a sequence, `stats.PopulationVariance` without
its emptiness guard: mean of squared deviations from the mean. -/
def popVariance (xs : List ℚ) : ℚ :=
  ((xs.map fun x => (x - statsMean xs) ^ 2).sum) / xs.length

/-- Population covariance of two parallel sequences,
`stats.CovariancePopulation` without its guards. -/
def popCovariance (xs ys : List ℚ) : ℚ :=
  (((xs.zip ys).map fun p =>
    (p.1 - statsMean xs) * (p.2 - statsMean ys)).sum) / xs.length

/-- `stats.CovariancePopulation`: errors on mismatched lengths or empty
input, otherwise the population covariance. -/
def covariancePopulation (xs ys : List ℚ) : Except FitError ℚ :=
  if xs.length ≠ ys.length then .error .sizeMismatch
  else if xs.length = 0 then .error .emptyInput
  else .ok (popCovariance xs ys)

/-- `stats.PopulationVariance`: errors on empty input, otherwise the
population variance. -/
def populationVariance (xs : List ℚ) : Except FitError ℚ :=
  if xs.length = 0 then .error .emptyInput else .ok (popVariance xs)

/-- `stats.Mean`: errors on empty input, otherwise the mean. -/
def statsMeanE (xs : List ℚ) : Except FitError ℚ :=
  if xs.length = 0 then .error .emptyInput else .ok (statsMean xs)

/-- `lineOfBestFit`: covariance, variance, explicit zero-variance check
before the division, means, then slope `cov/var` and intercept
`meanY - slope*meanX`.  Returns `(yIntercept, slope)`. -/
def lineOfBestFit (allSeconds allCPUUtilizations : List ℚ) :
    Except FitError (ℚ × ℚ) :=
  match covariancePopulation allSeconds allCPUUtilizations with
  | .error e => .error e
  | .ok covariance =>
    match populationVariance allSeconds with
    | .error e => .error e
    | .ok secondsVariance =>
      if secondsVariance = 0 then .error .degenerateInput
      else
        match statsMeanE allSeconds, statsMeanE allCPUUtilizations with
        | .error e, _ => .error e
        | .ok _, .error e => .error e
        | .ok meanSeconds, .ok meanCPUUtilization =>
          let slope := covariance / secondsVariance
          let yIntercept := meanCPUUtilization - slope * meanSeconds
          .ok (yIntercept, slope)

/-- `predictFutureCPUFromBestFit`: evaluate the fitted line at
`currentTime + pit`. -/
def predictFutureCPUFromBestFit (pit currentTime yIntercept slope : ℚ) :
    ℚ :=
  let futurePredictionTime := currentTime + pit
  yIntercept + slope * futurePredictionTime

/-- Errors of `initTimeForPod`: the literal `"Pod is not ready."` error and
a `time.ParseDuration` failure on cached metadata. -/
inductive InitTimeError
  | notReady
  | durationParse
deriving DecidableEq

/-- `api.PodReady` condition type. -/
def PodReady : String := "Ready"

/-- `PitAnnotationName`: key of the pod's cached initialization time. -/
def PitAnnotationName : String := "InitializationTime"

/-- One entry of `api.Pod.Status.Conditions`; `lastTransitionTime` in
integer nanoseconds since the Unix epoch. -/
structure PodCondition where
  condType : String
  lastTransitionTime : Int
deriving DecidableEq

/-- The fragment of `api.Pod` the code touches: creation timestamp in
nanoseconds, status conditions, and the `Annotations` map.  `none` models a
nil Go map, `some m` an allocated map (an association list in insertion
order, as maps with at most a handful of keys). -/
structure Pod where
  creationTimestamp : Int
  conditions : List PodCondition
  annotations : Option (List (String × String))
deriving DecidableEq

/-- Go map read `pod.Annotations[key]`: reading a nil map yields
"not found". -/
def lookupAnn : Option (List (String × String)) → String → Option String
  | none, _ => none
  | some m, k => (m.find? fun p => p.1 == k).map (·.2)

/-- Go map write on an allocated map: replace the entry if the key exists,
otherwise add it. -/
def insertAnn (m : List (String × String)) (k v : String) :
    List (String × String) :=
  if m.any (fun p => p.1 == k) then
    m.map fun p => if p.1 == k then (k, v) else p
  else m ++ [(k, v)]

/-- `writeToPodAnnotations`: allocate the map if nil, then assign. -/
def writeToPodAnnotations (pod : Pod) (key value : String) : Pod :=
  match pod.annotations with
  | none => { pod with annotations := some [(key, value)] }
  | some m => { pod with annotations := some (insertAnn m key value) }

/-- The condition loop of `initTimeForPod`: at the first `PodReady`
condition, read the cached duration (computing and writing it first when
absent), parse it, and return its seconds; no ready condition is the
`"Pod is not ready."` error.  Returns the result together with the final
state of the (by-value) pod parameter. -/
def initTimeLoop (fmtDur : Int → String) (parseDur : String → Option Int)
    (pod : Pod) : List PodCondition → Except InitTimeError ℚ × Pod
  | [] => (.error .notReady, pod)
  | cond :: rest =>
    if cond.condType == PodReady then
      match lookupAnn pod.annotations PitAnnotationName with
      | some initTime =>
        match parseDur initTime with
        | some d => (.ok ((d : ℚ) / 1000000000), pod)
        | none => (.error .durationParse, pod)
      | none =>
        let initTime :=
          fmtDur (cond.lastTransitionTime - pod.creationTimestamp)
        let pod2 := writeToPodAnnotations pod PitAnnotationName initTime
        match parseDur initTime with
        | some d => (.ok ((d : ℚ) / 1000000000), pod2)
        | none => (.error .durationParse, pod2)
    else initTimeLoop fmtDur parseDur pod rest

/-- `initTimeForPod`: seconds a single pod took to initialize, plus the
final state of the local (by-value) pod copy. -/
def initTimeForPod (fmtDur : Int → String) (parseDur : String → Option Int)
    (pod : Pod) : Except InitTimeError ℚ × Pod :=
  initTimeLoop fmtDur parseDur pod pod.conditions

/-- What the caller of `initTimeForPod` observes afterwards: the result,
and its own pod.  Because the pod is passed by value, a write through an
allocated `Annotations` map is shared with the caller, while a map
allocated inside the callee (nil caller map) is lost. -/
def initTimeForPodCaller (fmtDur : Int → String)
    (parseDur : String → Option Int) (pod : Pod) :
    Except InitTimeError ℚ × Pod :=
  let r := initTimeForPod fmtDur parseDur pod
  match pod.annotations with
  | none => (r.1, pod)
  | some _ => (r.1, { pod with annotations := r.2.annotations })

/-- Accumulating loop of `initTimeForPods`: abort on the first per-pod
error, else total the latencies and count the pods; zero counted pods
yields `0.0` with no error, otherwise the mean. -/
def initTimeForPodsLoop (fmtDur : Int → String)
    (parseDur : String → Option Int) :
    List Pod → ℚ → Nat → Except InitTimeError ℚ
  | [], totalInitializationTime, readyPods =>
    if readyPods = 0 then .ok 0
    else .ok (totalInitializationTime / readyPods)
  | pod :: rest, totalInitializationTime, readyPods =>
    match (initTimeForPod fmtDur parseDur pod).1 with
    | .error e => .error e
    | .ok pit =>
      initTimeForPodsLoop fmtDur parseDur rest
        (totalInitializationTime + pit) (readyPods + 1)

/-- `initTimeForPods`: average initialization time of the given pods. -/
def initTimeForPods (fmtDur : Int → String)
    (parseDur : String → Option Int) (pods : List Pod) :
    Except InitTimeError ℚ :=
  initTimeForPodsLoop fmtDur parseDur pods 0 0

/-- Whether a pod carries a `PodReady` condition. -/
def hasReadyCondition (pod : Pod) : Bool :=
  pod.conditions.any fun c => c.condType == PodReady

/-- First `PodReady` condition of a list, the one `initTimeForPod`'s scan
acts on. -/
def firstReadyCondition (conds : List PodCondition) : Option PodCondition :=
  conds.find? fun c => c.condType == PodReady

/-- Concrete duration formatter for test inputs: a finite table of
decimal-nanosecond renderings (a stand-in for Go `Duration.String`, which
any formatter satisfying the parse round-trip law models). -/
def fmtDurTest : Int → String := fun n =>
  if n = 7 then "7"
  else if n = 60000000000 then "60000000000"
  else if n = 120000000000 then "120000000000"
  else ""

/-- Concrete duration parser matching `fmtDurTest` (a stand-in for Go
`time.ParseDuration`); every string outside the table is malformed. -/
def parseDurTest : String → Option Int := fun s =>
  if s = "7" then some 7
  else if s = "5000000000" then some 5000000000
  else if s = "60000000000" then some 60000000000
  else if s = "120000000000" then some 120000000000
  else none

/-- Concrete timestamp parser for test inputs: a finite table of decimal
Unix-second keys; anything else is malformed. -/
def parseTest : String → Option ℚ := fun s =>
  if s = "10" then some 10
  else if s = "100" then some 100
  else if s = "500" then some 500
  else if s = "1000" then some 1000
  else none

/-- x-values of the Go regression test `TestLineOfBestFit`. -/
def testSeconds : List ℚ := [3, 5, 3, 7, 5, 8, 7, 4, 6, 2]

/-- y-values of the Go regression test `TestLineOfBestFit`. -/
def testCPUUtilizations : List ℚ :=
  [21, 26, 20, 32, 23, 42, 35, 24, 30, 17]

/-! ## Helper lemmas -/

/-- A pod whose condition list has no `PodReady` entry drives
`initTimeLoop` to the not-ready error. -/
lemma initTimeLoop_no_ready (fmtDur : Int → String)
    (parseDur : String → Option Int) (pod : Pod) :
    ∀ conds : List PodCondition,
      (conds.any fun c => c.condType == PodReady) = false →
      (initTimeLoop fmtDur parseDur pod conds).1 = .error .notReady := by
  intro conds
  induction conds with
  | nil => intro _; rfl
  | cons c rest ih =>
    intro h
    rw [List.any_cons, Bool.or_eq_false_iff] at h
    rw [initTimeLoop, if_neg (by simp [h.1]), ih h.2]

/-- If some pod in the list has no ready condition, the averaging loop
returns an error (it aborts at the first failing pod). -/
lemma initTimeForPodsLoop_err (fmtDur : Int → String)
    (parseDur : String → Option Int) (pod : Pod) :
    ∀ (pods : List Pod) (total : ℚ) (ready : Nat), pod ∈ pods →
      hasReadyCondition pod = false →
      ∃ e, initTimeForPodsLoop fmtDur parseDur pods total ready =
        .error e := by
  intro pods
  induction pods with
  | nil => intro total ready h _; cases h
  | cons p rest ih =>
    intro total ready hmem hnr
    rcases List.mem_cons.mp hmem with rfl | hmem2
    · refine ⟨.notReady, ?_⟩
      have h1 : (initTimeForPod fmtDur parseDur pod).1 = .error .notReady :=
        initTimeLoop_no_ready fmtDur parseDur pod pod.conditions hnr
      rw [initTimeForPodsLoop, h1]
    · cases h1 : (initTimeForPod fmtDur parseDur p).1 with
      | error e => exact ⟨e, by simp only [initTimeForPodsLoop, h1]⟩
      | ok pit =>
        obtain ⟨e, he⟩ := ih (total + pit) (ready + 1) hmem2 hnr
        refine ⟨e, ?_⟩
        simp only [initTimeForPodsLoop, h1]
        exact he

/-- The eviction scan keeps a contiguous suffix: on a window whose parsed
timestamps are non-decreasing, it drops exactly the leading samples whose
age reaches `maxD` and keeps everything from the first in-range sample. -/
lemma removeOldLoop_suffix (parse : String → Option ℚ) (now maxD : ℚ) :
    ∀ obs : List Observation,
      (obs.map fun ob =>
        (parse ob.1).getD goZeroTimeSeconds).Pairwise (· ≤ ·) →
      ∃ i, i ≤ obs.length ∧
        removeOldLoop parse now maxD obs = obs.drop i ∧
        (∀ ob ∈ obs.take i,
          maxD ≤ now - (parse ob.1).getD goZeroTimeSeconds) ∧
        ∀ ob ∈ obs.drop i,
          now - (parse ob.1).getD goZeroTimeSeconds < maxD := by
  intro obs
  induction obs with
  | nil => intro _; exact ⟨0, by simp [removeOldLoop]⟩
  | cons ob rest ih =>
    intro hmono
    rw [List.map_cons, List.pairwise_cons] at hmono
    by_cases hk : now - (parse ob.1).getD goZeroTimeSeconds < maxD
    · refine ⟨0, Nat.zero_le _, ?_, by simp, ?_⟩
      · rw [removeOldLoop, if_pos hk, List.drop_zero]
      · intro x hx
        rw [List.drop_zero] at hx
        rcases List.mem_cons.mp hx with rfl | hx2
        · exact hk
        · have hle : (parse ob.1).getD goZeroTimeSeconds ≤
              (parse x.1).getD goZeroTimeSeconds :=
            hmono.1 _ (List.mem_map_of_mem _ hx2)
          calc now - (parse x.1).getD goZeroTimeSeconds
              ≤ now - (parse ob.1).getD goZeroTimeSeconds := by linarith
            _ < maxD := hk
    · obtain ⟨i, hi, heq, hpre, hsuf⟩ := ih hmono.2
      refine ⟨i + 1, Nat.succ_le_succ hi, ?_, ?_, ?_⟩
      · rw [removeOldLoop, if_neg hk, List.drop_succ_cons, heq]
      · intro x hx
        rw [List.take_succ_cons] at hx
        rcases List.mem_cons.mp hx with rfl | hx2
        · exact le_of_not_lt hk
        · exact hpre x hx2
      · intro x hx
        rw [List.drop_succ_cons] at hx
        exact hsuf x hx

/-- Population variance of a constant sequence is zero. -/
lemma popVariance_replicate (n : ℕ) (c : ℚ) (hn : n ≠ 0) :
    popVariance (List.replicate n c) = 0 := by
  have hn2 : ((n : ℚ)) ≠ 0 := Nat.cast_ne_zero.mpr hn
  have hmean : statsMean (List.replicate n c) = c := by
    rw [statsMean, List.sum_replicate, List.length_replicate, nsmul_eq_mul]
    field_simp
  simp [popVariance, hmean, List.map_replicate, List.sum_replicate]

/-- Searching past a list that does not contain the sought key. -/
lemma find?_append_of_none {p : String × String → Bool}
    {m : List (String × String)} (h : m.find? p = none)
    (m2 : List (String × String)) : (m ++ m2).find? p = m2.find? p := by
  induction m with
  | nil => rfl
  | cons a rest ih =>
    cases hpa : p a with
    | true => rw [List.find?_cons_of_pos _ hpa] at h; cases h
    | false =>
      rw [List.find?_cons_of_neg _ (by simp [hpa])] at h
      rw [List.cons_append, List.find?_cons_of_neg _ (by simp [hpa]), ih h]

/-- Writing an absent key into an allocated annotation map makes it
readable. -/
lemma lookupAnn_insert_self (m : List (String × String)) (k v : String)
    (h : lookupAnn (some m) k = none) :
    lookupAnn (some (insertAnn m k v)) k = some v := by
  have hf : (m.find? fun p => p.1 == k) = none := by
    cases hx : m.find? fun p => p.1 == k
    · rfl
    · rw [lookupAnn, hx] at h; cases h
  have hany : (m.any fun p => p.1 == k) = false := by
    cases hx : m.any fun p => p.1 == k
    · rfl
    · obtain ⟨p, hp, hpk⟩ := List.any_eq_true.mp hx
      have := List.find?_eq_none.mp hf p hp
      simp [hpk] at this
  rw [insertAnn, if_neg (by simp [hany]), lookupAnn,
    find?_append_of_none hf]
  simp

/-- With a ready condition present, `initTimeLoop` never reports
not-ready. -/
lemma initTimeLoop_ready_ne (fmtDur : Int → String)
    (parseDur : String → Option Int) (pod : Pod) :
    ∀ conds : List PodCondition,
      (conds.any fun c => c.condType == PodReady) = true →
      (initTimeLoop fmtDur parseDur pod conds).1 ≠ .error .notReady := by
  intro conds
  induction conds with
  | nil => intro h; cases h
  | cons c rest ih =>
    intro h
    by_cases hc : (c.condType == PodReady) = true
    · rw [initTimeLoop, if_pos hc]
      rcases h2 : lookupAnn pod.annotations PitAnnotationName with _ | s
      · rcases h3 : parseDur (fmtDur
            (c.lastTransitionTime - pod.creationTimestamp)) <;> simp [h3]
      · rcases h3 : parseDur s <;> simp [h3]
    · have hrest : (rest.any fun c => c.condType == PodReady) = true := by
        rw [List.any_cons] at h
        rcases Bool.or_eq_true_iff.mp h with h1 | h1
        · exact absurd h1 hc
        · exact h1
      rw [initTimeLoop, if_neg hc]
      exact ih hrest

/-- With a ready condition and a parseable cached duration, the loop
returns the parsed cache in seconds. -/
lemma initTimeLoop_cached (fmtDur : Int → String)
    (parseDur : String → Option Int) (pod : Pod) (s : String) (dn : Int)
    (hs : lookupAnn pod.annotations PitAnnotationName = some s)
    (hd : parseDur s = some dn) :
    ∀ conds : List PodCondition,
      (conds.any fun c => c.condType == PodReady) = true →
      (initTimeLoop fmtDur parseDur pod conds).1 =
        .ok ((dn : ℚ) / 1000000000) := by
  intro conds
  induction conds with
  | nil => intro h; cases h
  | cons c rest ih =>
    intro h
    by_cases hc : (c.condType == PodReady) = true
    · rw [initTimeLoop, if_pos hc, hs]
      simp [hd]
    · have hrest : (rest.any fun c => c.condType == PodReady) = true := by
        rw [List.any_cons] at h
        rcases Bool.or_eq_true_iff.mp h with h1 | h1
        · exact absurd h1 hc
        · exact h1
      rw [initTimeLoop, if_neg hc]
      exact ih hrest

/-- With a ready condition and a malformed cached duration, the loop
fails with the duration-parse error. -/
lemma initTimeLoop_cached_bad (fmtDur : Int → String)
    (parseDur : String → Option Int) (pod : Pod) (s : String)
    (hs : lookupAnn pod.annotations PitAnnotationName = some s)
    (hd : parseDur s = none) :
    ∀ conds : List PodCondition,
      (conds.any fun c => c.condType == PodReady) = true →
      (initTimeLoop fmtDur parseDur pod conds).1 =
        .error .durationParse := by
  intro conds
  induction conds with
  | nil => intro h; cases h
  | cons c rest ih =>
    intro h
    by_cases hc : (c.condType == PodReady) = true
    · rw [initTimeLoop, if_pos hc, hs]
      simp [hd]
    · have hrest : (rest.any fun c => c.condType == PodReady) = true := by
        rw [List.any_cons] at h
        rcases Bool.or_eq_true_iff.mp h with h1 | h1
        · exact absurd h1 hc
        · exact h1
      rw [initTimeLoop, if_neg hc]
      exact ih hrest

/-- With no cached duration, the loop computes the latency from the first
ready condition and returns it (given the duration format round-trips). -/
lemma initTimeLoop_fresh (fmtDur : Int → String)
    (parseDur : String → Option Int) (pod : Pod) (cond : PodCondition)
    (dn : Int)
    (hl : lookupAnn pod.annotations PitAnnotationName = none)
    (hd : parseDur (fmtDur
      (cond.lastTransitionTime - pod.creationTimestamp)) = some dn) :
    ∀ conds : List PodCondition,
      firstReadyCondition conds = some cond →
      (initTimeLoop fmtDur parseDur pod conds).1 =
        .ok ((dn : ℚ) / 1000000000) := by
  intro conds
  induction conds with
  | nil => intro h; cases h
  | cons c rest ih =>
    intro h
    by_cases hc : (c.condType == PodReady) = true
    · rw [firstReadyCondition] at h
      simp only [List.find?, hc] at h
      obtain rfl : c = cond := Option.some_inj.mp h
      rw [initTimeLoop, if_pos hc, hl]
      simp [hd]
    · rw [firstReadyCondition] at h
      simp only [List.find?, hc] at h
      rw [initTimeLoop, if_neg hc]
      exact ih h

/-! ## Claim theorems -/

/-- C8: `predictFutureCPUFromBestFit` computes exactly
`intercept + slope * (now + bootLatency)` for all inputs — a pure total
function with no failure mode; in particular
`predict(bootLatency=5, now=0, intercept=0, slope=1) = 5.0`, and the
result can be negative (no clamping). -/
theorem predictFutureCPUFromBestFit_spec :
    (∀ pit currentTime yIntercept slope : ℚ,
      predictFutureCPUFromBestFit pit currentTime yIntercept slope =
        yIntercept + slope * (currentTime + pit)) ∧
    predictFutureCPUFromBestFit 5 0 0 1 = 5 ∧
    ∃ pit currentTime yIntercept slope : ℚ,
      predictFutureCPUFromBestFit pit currentTime yIntercept slope < 0 := by
  refine ⟨fun pit ct yi s => rfl, by norm_num [predictFutureCPUFromBestFit],
    0, 0, -1, 0, by norm_num [predictFutureCPUFromBestFit]⟩

/-- C10: `updateUtilizationObservations` appends the new observation as a
separate single-entry record at the end of the window, so records sharing
an identical timestamp remain two distinct entries; concretely, advancing
a window that already holds a sample at the very timestamp being appended
yields two entries with the same key. -/
theorem updateUtilizationObservations_append_distinct :
    (∀ (parse : String → Option ℚ) (nowKey : String) (now : ℚ) (u : Int)
      (obs : List Observation) (pit : ℚ),
      ∃ w, updateUtilizationObservations parse nowKey now u obs pit =
          .ok w ∧
        w = removeOldUtils parse now obs pit ++ [(nowKey, u)] ∧
        w.length = (removeOldUtils parse now obs pit).length + 1) ∧
    updateUtilizationObservations parseTest "100" 100 70 [("100", 50)] 5 =
      .ok [("100", 50), ("100", 70)] := by
  constructor
  · intro parse nowKey now u obs pit
    exact ⟨removeOldUtils parse now obs pit ++ [(nowKey, u)], rfl, rfl,
      by simp⟩
  · have hm : retentionMaxDistance 5 = 100 := by
      rw [retentionMaxDistance, min_def]
      norm_num
    have hp : parseTest "100" = some 100 := rfl
    have h1 : removeOldUtils parseTest 100 [("100", 50)] 5 =
        [("100", 50)] := by
      rw [removeOldUtils, removeOldLoop, hm, hp]
      norm_num
    show Except.ok
        (removeOldUtils parseTest 100 [("100", 50)] 5 ++ [("100", 70)]) =
      Except.ok [("100", 50), ("100", 70)]
    rw [h1]
    rfl

/-- C7: the retention horizon used by the eviction step is
`min(bootLatencySeconds * 20, 600 seconds)`, recomputed from the
boot-latency argument on every call: a single-sample window survives
`removeOldUtils` exactly when its age is strictly below that bound. -/
theorem retentionHorizon_spec :
    (∀ podInitTime : ℚ,
      retentionMaxDistance podInitTime = min (podInitTime * 20) 600) ∧
    ∀ (parse : String → Option ℚ) (now : ℚ) (k : String) (v : Int)
      (t podInitTime : ℚ), parse k = some t →
      removeOldUtils parse now [(k, v)] podInitTime =
        if now - t < min (podInitTime * 20) 600 then [(k, v)] else [] := by
  constructor
  · intro pit
    norm_num [retentionMaxDistance]
  · intro parse now k v t pit h
    rw [removeOldUtils, removeOldLoop]
    simp only [h, Option.getD_some]
    rw [show ∀ maxD, removeOldLoop parse now maxD [] = [] from fun _ => rfl]
    norm_num [retentionMaxDistance]

/-- Witness for C7 at a concrete input: a sample 690 seconds old against a
horizon of `min(5*20, 600) = 100` seconds is evicted. -/
theorem retentionHorizon_spec_witness :
    parseTest "10" = some 10 ∧
    removeOldUtils parseTest 700 [("10", 42)] 5 =
      if (700 : ℚ) - 10 < min (5 * 20) 600 then [("10", 42)] else [] :=
  ⟨rfl, retentionHorizon_spec.2 parseTest 700 "10" 42 10 5 rfl⟩

/-- C2 counterexample: a previous window holding a sample with a malformed
timestamp does NOT make `updateUtilizationObservations` return an error:
the parse failure is silently ignored (the sample is treated as the zero
time and evicted) and the call succeeds. -/
theorem updateUtilizationObservations_malformed_cex :
    updateUtilizationObservations parseTest "1000" 1000 70 [("bogus", 50)]
      5 = .ok [("1000", 70)] := by
  have hm : retentionMaxDistance 5 = 100 := by
    rw [retentionMaxDistance, min_def]
    norm_num
  have hp : parseTest "bogus" = none := rfl
  have h1 : removeOldUtils parseTest 1000 [("bogus", 50)] 5 = [] := by
    rw [removeOldUtils, removeOldLoop, hm, hp]
    norm_num [goZeroTimeSeconds, removeOldLoop]
  show Except.ok
      (removeOldUtils parseTest 1000 [("bogus", 50)] 5 ++ [("1000", 70)]) =
    Except.ok [("1000", 70)]
  rw [h1]
  rfl

/-- C2 amended: `updateUtilizationObservations` surfaces no error for the
previous window at all — it always succeeds, returning the pruned window
plus the fresh observation (so there is indeed no partial mutation, but
also no `InputFormatError`): a sample whose timestamp fails to parse is
compared as the zero `time.Time` (Go `UnmarshalJSON` assigns the zero
value on failure and `removeOldUtils` drops the error). -/
theorem updateUtilizationObservations_total :
    (∀ (parse : String → Option ℚ) (nowKey : String) (now : ℚ) (u : Int)
      (obs : List Observation) (pit : ℚ),
      updateUtilizationObservations parse nowKey now u obs pit =
        .ok (removeOldUtils parse now obs pit ++ [(nowKey, u)])) ∧
    ∀ (parse : String → Option ℚ) (now : ℚ) (k : String) (v : Int)
      (rest : List Observation) (pit : ℚ), parse k = none →
      removeOldUtils parse now ((k, v) :: rest) pit =
        if now - goZeroTimeSeconds < retentionMaxDistance pit then
          (k, v) :: rest
        else removeOldLoop parse now (retentionMaxDistance pit) rest := by
  constructor
  · intro parse nowKey now u obs pit
    rfl
  · intro parse now k v rest pit h
    rw [removeOldUtils, removeOldLoop, h]
    rfl

/-- Witness for C2's amended theorem at a concrete malformed input. -/
theorem updateUtilizationObservations_total_witness :
    parseTest "bogus" = none ∧
    removeOldUtils parseTest 1000 [("bogus", 50)] 5 =
      if (1000 : ℚ) - goZeroTimeSeconds < retentionMaxDistance 5 then
        [("bogus", 50)]
      else removeOldLoop parseTest 1000 (retentionMaxDistance 5) [] :=
  ⟨rfl, updateUtilizationObservations_total.2 parseTest 1000 "bogus" 50 []
    5 rfl⟩

/-- C4: on a chronologically ordered, well-formed previous window, the
advance operation keeps exactly a contiguous suffix of the window in its
original order — the scan evicts every leading sample whose age reaches
the retention horizon and stops at the first in-range sample without
re-scanning past it — and appends the single new observation last; an
empty previous window yields a window of length exactly 1. -/
theorem updateUtilizationObservations_suffix_spec
    (parse : String → Option ℚ) (nowKey : String) (now : ℚ) (u : Int)
    (pit : ℚ) (obs : List Observation)
    (hparse : ∀ ob ∈ obs, (parse ob.1).isSome = true)
    (hmono : (obs.map fun ob =>
      (parse ob.1).getD goZeroTimeSeconds).Pairwise (· ≤ ·)) :
    (∃ i, i ≤ obs.length ∧
      updateUtilizationObservations parse nowKey now u obs pit =
        .ok (obs.drop i ++ [(nowKey, u)]) ∧
      (∀ ob ∈ obs.take i, retentionMaxDistance pit ≤
        now - (parse ob.1).getD goZeroTimeSeconds) ∧
      ∀ ob ∈ obs.drop i,
        now - (parse ob.1).getD goZeroTimeSeconds <
          retentionMaxDistance pit) ∧
    updateUtilizationObservations parse nowKey now u [] pit =
      .ok [(nowKey, u)] := by
  obtain ⟨i, hi, heq, hpre, hsuf⟩ :=
    removeOldLoop_suffix parse now (retentionMaxDistance pit) obs hmono
  refine ⟨⟨i, hi, ?_, hpre, hsuf⟩, rfl⟩
  show Except.ok (removeOldUtils parse now obs pit ++ [(nowKey, u)]) = _
  rw [removeOldUtils, heq]

/-- Witness for C4 at a concrete input: of two ordered samples aged 450
and 50 seconds against a horizon of 100 seconds, exactly the leading one
is evicted and the fresh observation lands at the end. -/
theorem updateUtilizationObservations_suffix_spec_witness :
    (∀ ob ∈ ([("100", 50), ("500", 60)] : List Observation),
      (parseTest ob.1).isSome = true) ∧
    (([("100", 50), ("500", 60)] : List Observation).map fun ob =>
      (parseTest ob.1).getD goZeroTimeSeconds).Pairwise (· ≤ ·) ∧
    ((∃ i, i ≤ ([("100", 50), ("500", 60)] : List Observation).length ∧
      updateUtilizationObservations parseTest "550" 550 70
        [("100", 50), ("500", 60)] 5 =
        .ok (([("100", 50), ("500", 60)] : List Observation).drop i ++
          [("550", 70)]) ∧
      (∀ ob ∈ ([("100", 50), ("500", 60)] : List Observation).take i,
        retentionMaxDistance 5 ≤
          550 - (parseTest ob.1).getD goZeroTimeSeconds) ∧
      ∀ ob ∈ ([("100", 50), ("500", 60)] : List Observation).drop i,
        550 - (parseTest ob.1).getD goZeroTimeSeconds <
          retentionMaxDistance 5) ∧
    updateUtilizationObservations parseTest "550" 550 70 [] 5 =
      .ok [("550", 70)]) := by
  have hparse : ∀ ob ∈ ([("100", 50), ("500", 60)] : List Observation),
      (parseTest ob.1).isSome = true := by decide
  have hmono : (([("100", 50), ("500", 60)] : List Observation).map
      fun ob => (parseTest ob.1).getD goZeroTimeSeconds).Pairwise
        (· ≤ ·) := by decide
  exact ⟨hparse, hmono, updateUtilizationObservations_suffix_spec
    parseTest "550" 550 70 5 [("100", 50), ("500", 60)] hparse hmono⟩

/-- C5: a window whose time sequence has population variance exactly zero
makes `lineOfBestFit` fail with the degenerate-input error — the division
by the variance is guarded behind the zero test and never reached; in
particular every nonempty window all of whose samples share one timestamp
is rejected. -/
theorem lineOfBestFit_degenerate_spec :
    (∀ xs ys : List ℚ, xs.length = ys.length → xs ≠ [] →
      popVariance xs = 0 →
      lineOfBestFit xs ys = .error .degenerateInput) ∧
    ∀ (n : ℕ) (c : ℚ) (ys : List ℚ), n ≠ 0 → ys.length = n →
      lineOfBestFit (List.replicate n c) ys = .error .degenerateInput := by
  have main : ∀ xs ys : List ℚ, xs.length = ys.length → xs ≠ [] →
      popVariance xs = 0 →
      lineOfBestFit xs ys = .error .degenerateInput := by
    intro xs ys hlen hne hvar
    have hl : ¬ xs.length = 0 := fun h => hne (List.length_eq_zero.mp h)
    have hcov : covariancePopulation xs ys =
        .ok (popCovariance xs ys) := by
      rw [covariancePopulation, if_neg (fun h => h hlen), if_neg hl]
    have hvarE : populationVariance xs = .ok (popVariance xs) := by
      rw [populationVariance, if_neg hl]
    rw [lineOfBestFit, hcov]
    simp only [hvarE, hvar]
    simp
  refine ⟨main, ?_⟩
  intro n c ys hn hy
  apply main
  · rw [List.length_replicate, hy]
  · intro h
    apply hn
    simpa using congrArg List.length h
  · exact popVariance_replicate n c hn

/-- Witness for C5 at a concrete input: three samples sharing the
timestamp 5. -/
theorem lineOfBestFit_degenerate_spec_witness :
    (([5, 5, 5] : List ℚ).length = ([1, 2, 3] : List ℚ).length) ∧
    ([5, 5, 5] : List ℚ) ≠ [] ∧ popVariance ([5, 5, 5] : List ℚ) = 0 ∧
    lineOfBestFit [5, 5, 5] [1, 2, 3] = .error .degenerateInput := by
  have h1 : (([5, 5, 5] : List ℚ)).length = ([1, 2, 3] : List ℚ).length :=
    rfl
  have h2 : ([5, 5, 5] : List ℚ) ≠ [] := by simp
  have h3 : popVariance ([5, 5, 5] : List ℚ) = 0 := by
    norm_num [popVariance, statsMean]
  exact ⟨h1, h2, h3,
    lineOfBestFit_degenerate_spec.1 [5, 5, 5] [1, 2, 3] h1 h2 h3⟩

/-- C6: with nonzero time-variance, `lineOfBestFit` returns slope
`populationCovariance(x,y) / populationVariance(x)` and intercept
`mean(y) − slope*mean(x)`; on the regression test data
(`testSeconds`, `testCPUUtilizations`) the slope is within 1 of 3.7 and
the intercept within 1 of 8.5. -/
theorem lineOfBestFit_formula_spec :
    (∀ xs ys : List ℚ, xs.length = ys.length → xs ≠ [] →
      popVariance xs ≠ 0 →
      lineOfBestFit xs ys =
        .ok (statsMean ys -
            popCovariance xs ys / popVariance xs * statsMean xs,
          popCovariance xs ys / popVariance xs)) ∧
    ∃ yIntercept slope : ℚ,
      lineOfBestFit testSeconds testCPUUtilizations =
        .ok (yIntercept, slope) ∧
      |slope - 37 / 10| < 1 ∧ |yIntercept - 85 / 10| < 1 := by
  have main : ∀ xs ys : List ℚ, xs.length = ys.length → xs ≠ [] →
      popVariance xs ≠ 0 →
      lineOfBestFit xs ys =
        .ok (statsMean ys -
            popCovariance xs ys / popVariance xs * statsMean xs,
          popCovariance xs ys / popVariance xs) := by
    intro xs ys hlen hne hvar
    have hl : ¬ xs.length = 0 := fun h => hne (List.length_eq_zero.mp h)
    have hcov : covariancePopulation xs ys =
        .ok (popCovariance xs ys) := by
      rw [covariancePopulation, if_neg (fun h => h hlen), if_neg hl]
    have hvarE : populationVariance xs = .ok (popVariance xs) := by
      rw [populationVariance, if_neg hl]
    have hmean : statsMeanE xs = .ok (statsMean xs) := by
      rw [statsMeanE, if_neg hl]
    have hmean2 : statsMeanE ys = .ok (statsMean ys) := by
      rw [statsMeanE, if_neg (by rw [← hlen]; exact hl)]
    rw [lineOfBestFit, hcov]
    simp only [hvarE, hmean, hmean2, if_neg hvar]
  refine ⟨main, 307 / 36, 133 / 36, ?_, ?_, ?_⟩
  · have h1 : popVariance testSeconds = 18 / 5 := by
      norm_num [popVariance, statsMean, testSeconds]
    have h2 : popCovariance testSeconds testCPUUtilizations = 133 / 10 := by
      norm_num [popCovariance, statsMean, testSeconds, testCPUUtilizations,
        List.zip_cons_cons, List.zip_nil_right]
    have h3 : statsMean testSeconds = 5 := by
      norm_num [statsMean, testSeconds]
    have h4 : statsMean testCPUUtilizations = 27 := by
      norm_num [statsMean, testCPUUtilizations]
    rw [main testSeconds testCPUUtilizations rfl (by simp [testSeconds])
      (by rw [h1]; norm_num), h1, h2, h3, h4]
    norm_num
  · rw [abs_sub_lt_iff]
    constructor <;> norm_num
  · rw [abs_sub_lt_iff]
    constructor <;> norm_num

/-- Witness for C6's general formula at a concrete input. -/
theorem lineOfBestFit_formula_spec_witness :
    (([1, 2] : List ℚ).length = ([10, 20] : List ℚ).length) ∧
    ([1, 2] : List ℚ) ≠ [] ∧ popVariance ([1, 2] : List ℚ) ≠ 0 ∧
    lineOfBestFit [1, 2] [10, 20] =
      .ok (statsMean [10, 20] -
          popCovariance [1, 2] [10, 20] / popVariance [1, 2] *
            statsMean [1, 2],
        popCovariance [1, 2] [10, 20] / popVariance [1, 2]) := by
  have h1 : (([1, 2] : List ℚ)).length = ([10, 20] : List ℚ).length := rfl
  have h2 : ([1, 2] : List ℚ) ≠ [] := by simp
  have h3 : popVariance ([1, 2] : List ℚ) ≠ 0 := by
    norm_num [popVariance, statsMean]
  exact ⟨h1, h2, h3,
    lineOfBestFit_formula_spec.1 [1, 2] [10, 20] h1 h2 h3⟩

/-- C1 counterexample: an instance lacking a ready condition is not
skipped: `initTimeForPods` aborts with the not-ready error instead of
returning the zero-ready mean `0.0` with no error. -/
theorem initTimeForPods_not_skipped_cex :
    initTimeForPods fmtDurTest parseDurTest [⟨0, [], none⟩] =
      .error .notReady ∧
    initTimeForPods fmtDurTest parseDurTest [⟨0, [], none⟩] ≠ .ok 0 :=
  ⟨rfl, fun h => Except.noConfusion h⟩

/-- C1 amended: `initTimeForPods` returns `0.0` with no error for an
empty instance list; it aborts with an error whenever some instance lacks
a ready condition (non-ready instances are not skipped); and on all-ready
input it returns the mean over the contributing instances: two ready
instances with latencies 60 and 120 seconds yield `90.0`. -/
theorem initTimeForPods_mean_spec :
    (∀ (fmtDur : Int → String) (parseDur : String → Option Int),
      initTimeForPods fmtDur parseDur [] = .ok 0) ∧
    (∀ (fmtDur : Int → String) (parseDur : String → Option Int)
      (pods : List Pod) (pod : Pod), pod ∈ pods →
      hasReadyCondition pod = false →
      ∃ e, initTimeForPods fmtDur parseDur pods = .error e) ∧
    initTimeForPods fmtDurTest parseDurTest
      [⟨0, [⟨"Ready", 0⟩], some [("InitializationTime", "60000000000")]⟩,
       ⟨0, [⟨"Ready", 0⟩],
        some [("InitializationTime", "120000000000")]⟩] = .ok 90 := by
  refine ⟨fun _ _ => rfl, ?_, ?_⟩
  · intro fmtDur parseDur pods pod hmem hnr
    exact initTimeForPodsLoop_err fmtDur parseDur pod pods 0 0 hmem hnr
  · have e1 : (initTimeForPod fmtDurTest parseDurTest
        ⟨0, [⟨"Ready", 0⟩],
          some [("InitializationTime", "60000000000")]⟩).1 =
        .ok ((60000000000 : ℚ) / 1000000000) := rfl
    have e2 : (initTimeForPod fmtDurTest parseDurTest
        ⟨0, [⟨"Ready", 0⟩],
          some [("InitializationTime", "120000000000")]⟩).1 =
        .ok ((120000000000 : ℚ) / 1000000000) := rfl
    simp only [initTimeForPods, initTimeForPodsLoop, e1, e2]
    norm_num

/-- Witness for C1's amended theorem: the error-propagation part at a
concrete one-element pod list. -/
theorem initTimeForPods_mean_spec_witness :
    ((⟨0, [], none⟩ : Pod) ∈ [(⟨0, [], none⟩ : Pod)]) ∧
    hasReadyCondition ⟨0, [], none⟩ = false ∧
    ∃ e, initTimeForPods fmtDurTest parseDurTest [⟨0, [], none⟩] =
      .error e := by
  have hmem : (⟨0, [], none⟩ : Pod) ∈ [(⟨0, [], none⟩ : Pod)] :=
    List.mem_singleton.mpr rfl
  have hnr : hasReadyCondition ⟨0, [], none⟩ = false := rfl
  exact ⟨hmem, hnr, initTimeForPods_mean_spec.2.1 fmtDurTest parseDurTest
    [⟨0, [], none⟩] ⟨0, [], none⟩ hmem hnr⟩

/-- C3 counterexample: a ready pod with a nil annotation map: the cache
write lands on the callee's by-value copy, so after the call the caller's
pod still carries no cache entry — the latency would be recomputed on
every subsequent call instead of being written once and reused. -/
theorem initTimeForPod_nilMap_cex :
    initTimeForPodCaller fmtDurTest parseDurTest
      ⟨0, [⟨"Ready", 7⟩], none⟩ =
      (.ok (7 / 1000000000), ⟨0, [⟨"Ready", 7⟩], none⟩) ∧
    lookupAnn (initTimeForPodCaller fmtDurTest parseDurTest
      ⟨0, [⟨"Ready", 7⟩], none⟩).2.annotations PitAnnotationName = none :=
  ⟨rfl, rfl⟩

/-- C3 amended: the write-once latency cache reaches the caller only when
the instance's metadata map is already allocated: for a ready pod whose
allocated annotation map lacks the cache key and whose formatted latency
round-trips through the duration parser, the first call returns the
latency, the caller's pod then carries the cache entry, and a second call
returns the same value from the cache while leaving the pod unchanged.
(With a nil map the write is lost and every call recomputes; see the
counterexample.) -/
theorem initTimeForPod_writeOnce_spec
    (fmtDur : Int → String) (parseDur : String → Option Int) (pod : Pod)
    (m : List (String × String)) (cond : PodCondition)
    (rest : List PodCondition) (dn : Int)
    (hpod : pod.conditions = cond :: rest)
    (hready : (cond.condType == PodReady) = true)
    (hann : pod.annotations = some m)
    (hmiss : lookupAnn (some m) PitAnnotationName = none)
    (hrt : parseDur (fmtDur (cond.lastTransitionTime -
      pod.creationTimestamp)) = some dn) :
    ∃ pod2 : Pod,
      initTimeForPodCaller fmtDur parseDur pod =
        (.ok ((dn : ℚ) / 1000000000), pod2) ∧
      lookupAnn pod2.annotations PitAnnotationName =
        some (fmtDur (cond.lastTransitionTime - pod.creationTimestamp)) ∧
      initTimeForPodCaller fmtDur parseDur pod2 =
        (.ok ((dn : ℚ) / 1000000000), pod2) := by
  obtain ⟨tc, conds, ann⟩ := pod
  simp only at hpod hann hrt
  subst hpod
  subst hann
  have hlook := lookupAnn_insert_self m PitAnnotationName
    (fmtDur (cond.lastTransitionTime - tc)) hmiss
  refine ⟨⟨tc, cond :: rest, some (insertAnn m PitAnnotationName
    (fmtDur (cond.lastTransitionTime - tc)))⟩, ?_, ?_, ?_⟩
  · simp [initTimeForPodCaller, initTimeForPod, initTimeLoop, hready,
      hmiss, hrt, writeToPodAnnotations]
  · exact hlook
  · simp [initTimeForPodCaller, initTimeForPod, initTimeLoop, hready,
      hlook, hrt]

/-- Witness for C3's amended theorem: a ready pod with an allocated empty
annotation map, latency 7 nanoseconds. -/
theorem initTimeForPod_writeOnce_spec_witness :
    ((⟨0, [⟨"Ready", 7⟩], some []⟩ : Pod).conditions =
      (⟨"Ready", 7⟩ : PodCondition) :: []) ∧
    (((⟨"Ready", 7⟩ : PodCondition).condType == PodReady) = true) ∧
    ((⟨0, [⟨"Ready", 7⟩], some []⟩ : Pod).annotations = some []) ∧
    lookupAnn (some []) PitAnnotationName = none ∧
    parseDurTest (fmtDurTest
      ((⟨"Ready", 7⟩ : PodCondition).lastTransitionTime -
        (⟨0, [⟨"Ready", 7⟩], some []⟩ : Pod).creationTimestamp)) =
      some 7 ∧
    ∃ pod2 : Pod,
      initTimeForPodCaller fmtDurTest parseDurTest
        ⟨0, [⟨"Ready", 7⟩], some []⟩ =
        (.ok (((7 : Int) : ℚ) / 1000000000), pod2) ∧
      lookupAnn pod2.annotations PitAnnotationName =
        some (fmtDurTest
          ((⟨"Ready", 7⟩ : PodCondition).lastTransitionTime -
            (⟨0, [⟨"Ready", 7⟩], some []⟩ : Pod).creationTimestamp)) ∧
      initTimeForPodCaller fmtDurTest parseDurTest pod2 =
        (.ok (((7 : Int) : ℚ) / 1000000000), pod2) := by
  refine ⟨rfl, rfl, rfl, rfl, rfl, ?_⟩
  exact initTimeForPod_writeOnce_spec fmtDurTest parseDurTest
    ⟨0, [⟨"Ready", 7⟩], some []⟩ [] ⟨"Ready", 7⟩ [] 7 rfl rfl rfl rfl rfl

/-- C9 counterexample: a ready pod whose cached duration string ("5
seconds") was not produced from its own timestamps: `initTimeForPod`
returns the parsed cache (5 seconds), not
(ready transition − creation) = 60 seconds, even though the cache is
well-formed. -/
theorem initTimeForPod_cached_cex :
    (initTimeForPod fmtDurTest parseDurTest
      ⟨0, [⟨"Ready", 60000000000⟩],
        some [("InitializationTime", "5000000000")]⟩).1 = .ok 5 ∧
    (((60000000000 : Int) - 0 : Int) : ℚ) / 1000000000 = 60 ∧
    (5 : ℚ) ≠ 60 := by
  refine ⟨?_, by norm_num, by norm_num⟩
  have e : (initTimeForPod fmtDurTest parseDurTest
      ⟨0, [⟨"Ready", 60000000000⟩],
        some [("InitializationTime", "5000000000")]⟩).1 =
      .ok ((5000000000 : ℚ) / 1000000000) := rfl
  rw [e]
  norm_num

/-- C9 amended: `initTimeForPod` fails with the not-ready error exactly
when the pod has no ready condition; with a ready condition and a cached
duration entry it returns the PARSED CACHE in seconds (the cache is
authoritative even when it differs from transition − creation), failing
with the duration-parse error when the cache is malformed; only when no
cache entry exists does it compute and return
(first ready transition − creation). -/
theorem initTimeForPod_ready_spec (fmtDur : Int → String)
    (parseDur : String → Option Int) (pod : Pod) :
    ((initTimeForPod fmtDur parseDur pod).1 = .error .notReady ↔
      hasReadyCondition pod = false) ∧
    (∀ s dn, hasReadyCondition pod = true →
      lookupAnn pod.annotations PitAnnotationName = some s →
      parseDur s = some dn →
      (initTimeForPod fmtDur parseDur pod).1 =
        .ok ((dn : ℚ) / 1000000000)) ∧
    (∀ s, hasReadyCondition pod = true →
      lookupAnn pod.annotations PitAnnotationName = some s →
      parseDur s = none →
      (initTimeForPod fmtDur parseDur pod).1 = .error .durationParse) ∧
    ∀ cond dn, firstReadyCondition pod.conditions = some cond →
      lookupAnn pod.annotations PitAnnotationName = none →
      parseDur (fmtDur (cond.lastTransitionTime -
        pod.creationTimestamp)) = some dn →
      (initTimeForPod fmtDur parseDur pod).1 =
        .ok ((dn : ℚ) / 1000000000) := by
  refine ⟨⟨?_, ?_⟩, ?_, ?_, ?_⟩
  · intro h
    by_contra hne
    have ht : hasReadyCondition pod = true := by
      cases hx : hasReadyCondition pod
      · exact absurd hx hne
      · rfl
    exact initTimeLoop_ready_ne fmtDur parseDur pod pod.conditions ht h
  · intro h
    exact initTimeLoop_no_ready fmtDur parseDur pod pod.conditions h
  · intro s dn ht hs hd
    exact initTimeLoop_cached fmtDur parseDur pod s dn hs hd
      pod.conditions ht
  · intro s ht hs hd
    exact initTimeLoop_cached_bad fmtDur parseDur pod s hs hd
      pod.conditions ht
  · intro cond dn hf hl hd
    exact initTimeLoop_fresh fmtDur parseDur pod cond dn hl hd
      pod.conditions hf

/-- Witness for C9's amended theorem: the cached branch at a concrete
ready pod, and the not-ready direction at a conditionless pod. -/
theorem initTimeForPod_ready_spec_witness :
    (hasReadyCondition ⟨0, [⟨"Ready", 60000000000⟩],
      some [("InitializationTime", "5000000000")]⟩ = true) ∧
    (lookupAnn (some [("InitializationTime", "5000000000")])
      PitAnnotationName = some "5000000000") ∧
    parseDurTest "5000000000" = some 5000000000 ∧
    ((initTimeForPod fmtDurTest parseDurTest
      ⟨0, [⟨"Ready", 60000000000⟩],
        some [("InitializationTime", "5000000000")]⟩).1 =
      .ok (((5000000000 : Int) : ℚ) / 1000000000)) ∧
    (initTimeForPod fmtDurTest parseDurTest ⟨0, [], none⟩).1 =
      .error .notReady := by
  have h1 : hasReadyCondition ⟨0, [⟨"Ready", 60000000000⟩],
      some [("InitializationTime", "5000000000")]⟩ = true := rfl
  have h2 : lookupAnn (some [("InitializationTime", "5000000000")])
      PitAnnotationName = some "5000000000" := rfl
  have h3 : parseDurTest "5000000000" = some 5000000000 := rfl
  refine ⟨h1, h2, h3, ?_, ?_⟩
  · exact (initTimeForPod_ready_spec fmtDurTest parseDurTest
      ⟨0, [⟨"Ready", 60000000000⟩],
        some [("InitializationTime", "5000000000")]⟩).2.1
      "5000000000" 5000000000 h1 h2 h3
  · exact (initTimeForPod_ready_spec fmtDurTest parseDurTest
      ⟨0, [], none⟩).1.mpr rfl

end PredictiveUtils
